import Mathlib

/-!
Shallow embedding of the OCR-to-PDF pipeline in src/index.js (second
revision, the one containing `organizeBlocks`, the revised `generatePDF`
and the revised `processPdf`).  Geometry coordinates and confidences are
modelled as rationals (ℚ), the standard idealisation of JS numbers; all
concrete values appearing in the claims are exactly representable and far
from any binary-rounding boundary.
-/

namespace OcrTextract

/-- Normalized bounding box, mirroring Textract's `Geometry.BoundingBox`
fields read by the code: `Top`, `Left`, `Width`, `Height`. -/
structure BoundingBox where
  Top : ℚ
  Left : ℚ
  Width : ℚ
  Height : ℚ
deriving DecidableEq, Repr

/-- A well-formed WORD block as consumed by `organizeBlocks`: the fields
the code reads (`Text`, `Confidence`, `Geometry.BoundingBox`). -/
structure Word where
  Text : String
  Confidence : ℚ
  box : BoundingBox
deriving DecidableEq, Repr

/-- A reconstructed line as built by `organizeBlocks` (`Text`,
`Confidence`, `Geometry.BoundingBox`). -/
structure LineOut where
  Text : String
  Confidence : ℚ
  box : BoundingBox
deriving DecidableEq, Repr

/-- Placeholder word used for total list indexing (`List.getD`); every
index the algorithm dereferences is in range, so it is never observed. -/
def wdefault : Word := ⟨"", 0, ⟨0, 0, 0, 0⟩⟩

/-- Vertical grouping threshold hardcoded in `organizeBlocks`
(`const threshold = 0.005` and the literal `0.005` in the grouping pass). -/
def verticalThreshold : ℚ := 5/1000

/-- Horizontal merge threshold hardcoded in `organizeBlocks`
(`if (gap < 0.01)`). -/
def horizontalMergeThreshold : ℚ := 1/100

/-- The sort comparator of `organizeBlocks`: if the tops differ by less
than the threshold, compare by `Left`, otherwise by `Top` (returning a
number whose sign decides the order, as in JS). -/
def jsCmp (a b : Word) : ℚ :=
  if |a.box.Top - b.box.Top| < verticalThreshold then a.box.Left - b.box.Left
  else a.box.Top - b.box.Top

/-- Stable insertion of one element with respect to a boolean "comes not
after" test. -/
def insertBy (le : α → α → Bool) (x : α) : List α → List α
  | [] => [x]
  | h :: t => if le x h then x :: h :: t else h :: insertBy le x t

/-- Stable sort by a boolean "comes not after" test, modelling JS
`Array.prototype.sort` (stable per the ECMAScript spec).  For inputs on
which the comparator is consistent — all inputs evaluated in this
development — every stable sort produces the same output. -/
def sortBy (le : α → α → Bool) : List α → List α
  | [] => []
  | h :: t => insertBy le h (sortBy le t)

/-- State of the single grouping pass of `organizeBlocks`.  Because the
code mutates `lastWord.Text` in place through a shared object reference,
words are represented by their index into a mutable `store` holding the
current state of each word record of the input (in input order). -/
structure GroupSt where
  store : List Word
  grouped : List (List Nat)
  currentLine : List Nat
  currentY : Option ℚ
  lastWord : Option Nat
deriving DecidableEq, Repr

/-- One iteration of the `sortedWords.forEach` body of `organizeBlocks`,
processing the word at store index `i`.  The merge branch updates
`lastWord`'s `Text` in the store and `return`s, skipping both the
`currentLine.push` and the trailing `lastWord = word` assignment. -/
def step (st : GroupSt) (i : Nat) : GroupSt :=
  let word := st.store.getD i wdefault
  let wordY := word.box.Top
  match st.currentY with
  | none =>
      { st with currentY := some wordY, currentLine := st.currentLine ++ [i],
                lastWord := some i }
  | some cy =>
      if |wordY - cy| < verticalThreshold then
        match st.lastWord with
        | some j =>
            let lw := st.store.getD j wdefault
            let gap := word.box.Left - (lw.box.Left + lw.box.Width)
            if gap < horizontalMergeThreshold then
              { st with store := st.store.set j { lw with Text := lw.Text ++ word.Text } }
            else
              { st with currentLine := st.currentLine ++ [i], lastWord := some i }
        | none =>
            { st with currentLine := st.currentLine ++ [i], lastWord := some i }
      else
        { st with
            grouped := if st.currentLine.isEmpty then st.grouped
                       else st.grouped ++ [st.currentLine],
            currentLine := [i],
            currentY := some wordY,
            lastWord := some i }

/-- The post-loop flush: `if (currentLine.length > 0) groupedLines.push(currentLine)`. -/
def flushGrouped (st : GroupSt) : List (List Nat) :=
  if st.currentLine.isEmpty then st.grouped else st.grouped ++ [st.currentLine]

/-- JS `Math.min(...)` over a nonempty spread (the code only applies it to
nonempty word lists; the empty case is unreachable). -/
def jsMinList : List ℚ → ℚ
  | [] => 0
  | h :: t => t.foldl min h

/-- JS `Math.max(...)` over a nonempty spread (the code only applies it to
nonempty word lists; the empty case is unreachable). -/
def jsMaxList : List ℚ → ℚ
  | [] => 0
  | h :: t => t.foldl max h

/-- JS `Number.prototype.toFixed(3)` viewed as the integer of thousandths
it prints: the nearest integer to `q * 1000`, ties to the larger, exactly
the ECMAScript rule.  The dedup key string `lineText + "_" + top.toFixed(3)`
determines the pair `(lineText, round3 top)` and conversely, because the
`toFixed` output contains no underscore, so keys are modelled as pairs. -/
def round3 (q : ℚ) : ℤ := round (q * 1000)

/-- The joined text of a grouped line: `lineWords.map(w => w.Text).join(" ")`,
reading the current store (mutated texts included). -/
def lineTextOf (store : List Word) (ids : List Nat) : String :=
  String.intercalate " " (ids.map (fun i => (store.getD i wdefault).Text))

/-- The dedup key of a grouped line, as the pair the key string encodes. -/
def lineKeyOf (store : List Word) (ids : List Nat) : String × ℤ :=
  (lineTextOf store ids, round3 (store.getD (ids.headD 0) wdefault).box.Top)

/-- The record stored in `uniqueLines` for a grouped line: joined text,
`Math.min` of the words' confidences, and a box with top/left/height from
the first word and width spanning to the rightmost word's right edge. -/
def finalizeLine (store : List Word) (ids : List Nat) : LineOut :=
  let first := store.getD (ids.headD 0) wdefault
  { Text := lineTextOf store ids
    Confidence := jsMinList (ids.map (fun i => (store.getD i wdefault).Confidence))
    box := { Top := first.box.Top
             Left := first.box.Left
             Width := jsMaxList (ids.map (fun i =>
                 (store.getD i wdefault).box.Left + (store.getD i wdefault).box.Width))
               - first.box.Left
             Height := first.box.Height } }

/-- The dedup fold of `organizeBlocks`: a JS `Map` keyed by
`lineText + "_" + top.toFixed(3)`, inserting only on first occurrence of a
key; `seen` carries the keys already present, the output preserves
insertion order (as `Map` iteration does). -/
def dedupAux (store : List Word) (seen : List (String × ℤ)) :
    List (List Nat) → List LineOut
  | [] => []
  | g :: t =>
      let k := lineKeyOf store g
      if k ∈ seen then dedupAux store seen t
      else finalizeLine store g :: dedupAux store (k :: seen) t

/-- The whole duplicate-removal stage of `organizeBlocks`. -/
def dedupLines (store : List Word) (gls : List (List Nat)) : List LineOut :=
  dedupAux store [] gls

/-- Final `.sort((a, b) => a.Geometry.BoundingBox.Top - b.Geometry.BoundingBox.Top)`. -/
def sortLinesByTop (ls : List LineOut) : List LineOut :=
  sortBy (fun a b => decide (a.box.Top - b.box.Top ≤ 0)) ls

/-- The whole of `organizeBlocks` on the WORD records, together with the
final state of those input records (the code mutates merged words' `Text`
in place through shared references, so the caller's records change).
Sorting happens on the array returned by `filter`, so the input array's
order is untouched; only `Text` fields mutate. -/
def organizeBlocksRun (ws : List Word) : List LineOut × List Word :=
  let sortedIds := (sortBy (fun p q => decide (jsCmp p.2 q.2 ≤ 0)) ws.enum).map Prod.fst
  let st := sortedIds.foldl step ⟨ws, [], [], none, none⟩
  (sortLinesByTop (dedupLines st.store (flushGrouped st)), st.store)

/-- The value `organizeBlocks` returns. -/
def organizeBlocks (ws : List Word) : List LineOut :=
  (organizeBlocksRun ws).1

/-- A raw Textract block as it reaches `organizeBlocks`: any of `Text`,
`Confidence` or `Geometry.BoundingBox` may be absent (`undefined`). -/
structure RawBlock where
  BlockType : String
  Text : Option String
  Confidence : Option ℚ
  geometry : Option BoundingBox
deriving DecidableEq, Repr

/-- Projection of a raw WORD block whose geometry is present.  On the
shapes no claim exercises (absent `Text`/`Confidence` with geometry
present), JS coerces `undefined` without throwing; the `getD` defaults
stand in for that coercion and are never evaluated in this development. -/
def extractWord (b : RawBlock) : Word :=
  ⟨b.Text.getD "", b.Confidence.getD 0, b.geometry.getD ⟨0, 0, 0, 0⟩⟩

/-- The entry of `organizeBlocks` on raw blocks.  The code filters to
`BlockType === "WORD"` and then unconditionally dereferences
`Geometry.BoundingBox.Top` of every surviving word (in the sort comparator
and in the grouping pass), so a WORD block whose geometry is absent makes
the function throw a TypeError, modelled as `Except.error`. -/
def organizeBlocksE (blocks : List RawBlock) : Except String (List LineOut) :=
  let ws := blocks.filter (fun b => b.BlockType == "WORD")
  if ws.all (fun b => b.geometry.isSome) then
    Except.ok (organizeBlocks (ws.map extractWord))
  else
    Except.error "TypeError: cannot read BoundingBox of undefined Geometry"

/-- PDFKit default page height in points (LETTER, 612 x 792); the code
reads it as `doc.page.height`. -/
def pageHeightPts : ℚ := 792

/-- The `minimumLineGap` constant of `generatePDF` (5 points). -/
def minimumLineGap : ℚ := 5

/-- The vertical-position rule of `generatePDF`: the natural position is
`line.Top * pageHeight`, and if that collides with the previous drawn line
(`yPos - lastY < minimumLineGap`) it is pushed down to `lastY + minimumLineGap`. -/
def nextY (lastY : Option ℚ) (y0 : ℚ) : ℚ :=
  match lastY with
  | none => y0
  | some ly => if y0 - ly < minimumLineGap then ly + minimumLineGap else y0

/-- The sequence of y-positions at which `generatePDF` draws the lines of
one page's `processedText`, threading `lastY` exactly as the code does. -/
def layoutYs (lastY : Option ℚ) : List LineOut → List ℚ
  | [] => []
  | l :: t =>
      let y := nextY lastY (l.box.Top * pageHeightPts)
      y :: layoutYs (some y) t

/-- Number of output text pages `generatePDF` adds for one document page:
one `doc.addPage()` when `processedText` is nonempty, and none otherwise;
the drawing loop contains no further `addPage`. -/
def textPageCount (lines : List LineOut) : Nat :=
  if lines.isEmpty then 0 else 1

/-- The externally observable result of one `processPdf` invocation. -/
structure ProcessingOutcome where
  success : Bool
  message : String
  pdfPath : Option String
deriving DecidableEq, Repr

/-- JS `try { body } catch (error) { handler }` where both branches return:
an error thrown anywhere in the body reaches the handler. -/
def jsTryCatch (body : Except String ProcessingOutcome)
    (handler : String → ProcessingOutcome) : ProcessingOutcome :=
  match body with
  | Except.ok oc => oc
  | Except.error m => handler m

/-- The `try` body of `processPdf` (second revision): fetch the object
from S3, then either the PDF flow (`processPages` bundling render + OCR +
reconstruction per page, then `generatePDF`) or the image flow (`analyzeDocument`,
`organizeBlocks` — which may itself throw — then `generatePDF`).  Each
stage is abstracted as an `Except`-valued collaborator; a thrown error is
`Except.error` and propagates through the binds to the surrounding catch. -/
def processPdfBody {α β γ δ : Type} (isPdf : Bool) (fetch : Except String α)
    (processPages : α → Except String β) (generatePDFp : β → Except String String)
    (analyzeDocument : α → Except String γ) (organize : γ → Except String δ)
    (generatePDFi : α → δ → Except String String) :
    Except String ProcessingOutcome := do
  let buffer ← fetch
  if isPdf then
    let pages ← processPages buffer
    let p ← generatePDFp pages
    pure ⟨true, "Document processed successfully", some p⟩
  else
    let resp ← analyzeDocument buffer
    let txt ← organize resp
    let p ← generatePDFi buffer txt
    pure ⟨true, "Document processed successfully", some p⟩

/-- The whole of `processPdf` after client construction: the `try` body
wrapped by the `catch` that returns `{ success: false, message: error.message }`. -/
def processPdfModel {α β γ δ : Type} (isPdf : Bool) (fetch : Except String α)
    (processPages : α → Except String β) (generatePDFp : β → Except String String)
    (analyzeDocument : α → Except String γ) (organize : γ → Except String δ)
    (generatePDFi : α → δ → Except String String) : ProcessingOutcome :=
  jsTryCatch
    (processPdfBody isPdf fetch processPages generatePDFp analyzeDocument organize generatePDFi)
    (fun m => ⟨false, m, none⟩)

/-- Reference first-occurrence filter: keep each element whose key has not
appeared earlier in the list. -/
def firstOccBy {α κ : Type} [DecidableEq κ] (key : α → κ) : List α → List α
  | [] => []
  | h :: t => h :: firstOccBy key (t.filter (fun x => decide (key x ≠ key h)))
termination_by l => l.length
decreasing_by
  simp only [List.length_cons]
  exact Nat.lt_succ_of_le (List.length_filter_le _ _)

/-- The word `{"Hel", top=0.1, left=0.10, width=0.03}` of the horizontal
merge example (height 0.02, confidence 99 chosen arbitrarily). -/
def helW : Word := ⟨"Hel", 99, ⟨1/10, 1/10, 3/100, 2/100⟩⟩

/-- The word `{"lo", top=0.1004, left=0.131, width=0.02}` of the
horizontal merge example. -/
def loW : Word := ⟨"lo", 98, ⟨1004/10000, 131/1000, 2/100, 2/100⟩⟩

/-- A word at `top = 0.500` for the vertical grouping example. -/
def vgA : Word := ⟨"x", 90, ⟨500/1000, 1/10, 5/100, 2/100⟩⟩

/-- A word at `top = 0.5049`, horizontally distant from `vgA`. -/
def vgB : Word := ⟨"y", 91, ⟨5049/10000, 3/10, 5/100, 2/100⟩⟩

/-- A word at `top = 0.510`, horizontally distant from `vgA`. -/
def vgC : Word := ⟨"z", 92, ⟨510/1000, 3/10, 5/100, 2/100⟩⟩

/-- Three same-line words with confidences 99, 72 and 95, each pair
separated by a gap well above the merge threshold. -/
def confWords : List Word :=
  [⟨"a", 99, ⟨2/10, 1/10, 5/100, 2/100⟩⟩,
   ⟨"b", 72, ⟨2/10, 2/10, 5/100, 2/100⟩⟩,
   ⟨"c", 95, ⟨2/10, 3/10, 5/100, 2/100⟩⟩]

/-- A pair for the merged-fragment statistics: the absorbed second
fragment has the lowest confidence (10 < 90) and the larger right edge
(0.131 + 0.039 = 0.17 > 0.13). -/
def fragA : Word := ⟨"ab", 90, ⟨3/10, 1/10, 3/100, 2/100⟩⟩

/-- The absorbed fragment paired with `fragA` (gap 0.001 < 0.01). -/
def fragB : Word := ⟨"cd", 10, ⟨3/10, 131/1000, 39/1000, 2/100⟩⟩

/-- Three reconstructed lines near the bottom of the page
(top = 0.99, so the natural position is 784.08 points): the collision
rule pushes the second and third down past the 792-point page height. -/
def overflowLines : List LineOut :=
  [⟨"l1", 95, ⟨99/100, 1/10, 5/100, 2/100⟩⟩,
   ⟨"l2", 95, ⟨99/100, 1/10, 5/100, 2/100⟩⟩,
   ⟨"l3", 95, ⟨99/100, 1/10, 5/100, 2/100⟩⟩]

/-- A WORD block with text and confidence but absent geometry. -/
def badGeomBlock : RawBlock := ⟨"WORD", some "hi", some 99, none⟩

/-- A grouping state mid-pass: `fragA` (index 0) is the current line's
only word and the last processed word, the reference top is 0.3, and
`fragB` (index 1) is about to be processed. -/
def mergeExSt : GroupSt := ⟨[fragA, fragB], [], [0], some (3/10), some 0⟩

/-- Key step lemma: in the same-line branch, when the incoming word's left
edge is within the merge threshold of the last word's right edge, the
iteration only rewrites the last word's `Text` in the store (appending the
incoming word's text with no separator); `grouped`, `currentLine`,
`currentY` and `lastWord` are all untouched. -/
theorem step_merge_eq (st : GroupSt) (i : Nat) (cy : ℚ) (j : Nat)
    (h1 : st.currentY = some cy) (h2 : st.lastWord = some j)
    (h3 : |(st.store.getD i wdefault).box.Top - cy| < verticalThreshold)
    (h4 : (st.store.getD i wdefault).box.Left -
        ((st.store.getD j wdefault).box.Left + (st.store.getD j wdefault).box.Width) <
      horizontalMergeThreshold) :
    step st i = { st with
        store := st.store.set j
          ({ st.store.getD j wdefault with
              Text := (st.store.getD j wdefault).Text ++ (st.store.getD i wdefault).Text }) } := by
  obtain ⟨store, grouped, curLine, curY, lastW⟩ := st
  simp only at h1 h2 h3 h4
  subst h1
  subst h2
  simp only [step]
  rw [if_pos h3, if_pos h4]

/-- Step lemma for the same-line branch: whatever the horizontal check
decides (merge or append), a word within the vertical threshold of the
reference top neither closes the current line nor changes the reference. -/
theorem step_sameline_keeps (st : GroupSt) (i : Nat) (cy : ℚ)
    (h1 : st.currentY = some cy)
    (h3 : |(st.store.getD i wdefault).box.Top - cy| < verticalThreshold) :
    (step st i).grouped = st.grouped ∧ (step st i).currentY = st.currentY := by
  obtain ⟨store, grouped, curLine, curY, lastW⟩ := st
  simp only at h1 h3
  subst h1
  simp only [step]
  rw [if_pos h3]
  cases lastW with
  | none => exact ⟨rfl, rfl⟩
  | some j =>
      dsimp only
      by_cases hg : (store.getD i wdefault).box.Left -
          ((store.getD j wdefault).box.Left + (store.getD j wdefault).box.Width) <
        horizontalMergeThreshold
      · rw [if_pos hg]; exact ⟨rfl, rfl⟩
      · rw [if_neg hg]; exact ⟨rfl, rfl⟩

/-- Step lemma for the far branch: a word at vertical distance at least
the threshold pushes the (nonempty) current line to the output groups and
seeds a fresh line with itself, resetting the reference top. -/
theorem step_far_closes (st : GroupSt) (i : Nat) (cy : ℚ)
    (h1 : st.currentY = some cy) (h2 : st.currentLine ≠ [])
    (h3 : ¬ |(st.store.getD i wdefault).box.Top - cy| < verticalThreshold) :
    (step st i).grouped = st.grouped ++ [st.currentLine] ∧
      (step st i).currentLine = [i] ∧
      (step st i).currentY = some (st.store.getD i wdefault).box.Top := by
  obtain ⟨store, grouped, curLine, curY, lastW⟩ := st
  simp only at h1 h2 h3 ⊢
  subst h1
  simp only [step]
  rw [if_neg h3]
  refine ⟨?_, rfl, rfl⟩
  simp only [List.isEmpty_eq_true]
  rw [if_neg h2]

/-- The left fold of `min` lands on one of the values folded over. -/
theorem foldl_min_mem (t : List ℚ) : ∀ h : ℚ, t.foldl min h ∈ h :: t := by
  induction t with
  | nil => intro h; simp
  | cons a t ih =>
      intro h
      simp only [List.foldl_cons]
      have hmem := ih (min h a)
      rcases List.mem_cons.1 hmem with h1 | h1
      · rw [h1]
        rcases min_choice h a with hc | hc
        · rw [hc]; exact List.mem_cons_self _ _
        · rw [hc]; exact List.mem_cons_of_mem _ (List.mem_cons_self _ _)
      · exact List.mem_cons_of_mem _ (List.mem_cons_of_mem _ h1)

/-- The left fold of `min` is a lower bound of all the values folded over. -/
theorem foldl_min_le (t : List ℚ) : ∀ (h x : ℚ), x ∈ h :: t → t.foldl min h ≤ x := by
  induction t with
  | nil =>
      intro h x hx
      rcases List.mem_singleton.1 hx with rfl
      exact le_refl x
  | cons a t ih =>
      intro h x hx
      simp only [List.foldl_cons]
      have hbase : List.foldl min (min h a) t ≤ min h a :=
        ih (min h a) (min h a) (List.mem_cons_self _ _)
      rcases List.mem_cons.1 hx with rfl | hx'
      · exact le_trans hbase (min_le_left _ _)
      · rcases List.mem_cons.1 hx' with rfl | hx''
        · exact le_trans hbase (min_le_right _ _)
        · exact ih (min h a) x (List.mem_cons_of_mem _ hx'')

/-- JS `Math.min` of a nonempty list is a member of the list. -/
theorem jsMinList_mem (l : List ℚ) (h : l ≠ []) : jsMinList l ∈ l := by
  cases l with
  | nil => exact absurd rfl h
  | cons a t => exact foldl_min_mem t a

/-- JS `Math.min` of a list bounds every member from below. -/
theorem jsMinList_le (l : List ℚ) : ∀ x ∈ l, jsMinList l ≤ x := by
  cases l with
  | nil => intro x hx; cases hx
  | cons a t => intro x hx; exact foldl_min_le t a x hx

/-- Inserting with `insertBy` permutes consing. -/
theorem insertBy_perm (le : α → α → Bool) (x : α) :
    ∀ l : List α, List.Perm (insertBy le x l) (x :: l) := by
  intro l
  induction l with
  | nil => exact List.Perm.refl _
  | cons h t ih =>
      simp only [insertBy]
      by_cases hle : le x h = true
      · rw [if_pos hle]
      · rw [if_neg hle]
        exact List.Perm.trans (List.Perm.cons h ih) (List.Perm.swap x h t)

/-- A stable sort is a permutation of its input: no line is created or
lost by the final ordering pass. -/
theorem sortBy_perm (le : α → α → Bool) :
    ∀ l : List α, List.Perm (sortBy le l) l := by
  intro l
  induction l with
  | nil => exact List.Perm.refl _
  | cons h t ih =>
      simp only [sortBy]
      exact List.Perm.trans (insertBy_perm le h (sortBy le t)) (List.Perm.cons h ih)

/-- The dedup fold with an arbitrary set of already-seen keys equals the
first-occurrence filter of the grouped lines whose key is not yet seen. -/
theorem dedupAux_eq (store : List Word) :
    ∀ (n : Nat) (gls : List (List Nat)), gls.length ≤ n →
    ∀ seen : List (String × ℤ),
      dedupAux store seen gls =
        (firstOccBy (lineKeyOf store)
            (gls.filter (fun g => decide (lineKeyOf store g ∉ seen)))).map
          (finalizeLine store) := by
  intro n
  induction n with
  | zero =>
      intro gls hlen seen
      have hnil : gls = [] := List.eq_nil_of_length_eq_zero (Nat.le_zero.1 hlen)
      subst hnil
      simp [dedupAux, firstOccBy]
  | succ n ih =>
      intro gls hlen seen
      cases gls with
      | nil => simp [dedupAux, firstOccBy]
      | cons g t =>
          have hlent : t.length ≤ n := Nat.le_of_succ_le_succ hlen
          simp only [dedupAux]
          by_cases hk : lineKeyOf store g ∈ seen
          · rw [if_pos hk, ih t hlent seen]
            have hfalse : decide (lineKeyOf store g ∉ seen) = false := by
              simp [hk]
            simp only [List.filter_cons, hfalse, Bool.false_eq_true, if_false]
          · rw [if_neg hk, ih t hlent (lineKeyOf store g :: seen)]
            have htrue : decide (lineKeyOf store g ∉ seen) = true := by
              simp [hk]
            simp only [List.filter_cons, htrue, if_pos]
            simp only [firstOccBy, List.map_cons]
            congr 2
            rw [List.filter_filter]
            have hpred : (fun g' => decide (lineKeyOf store g' ∉ lineKeyOf store g :: seen))
                = (fun a => decide (lineKeyOf store a ≠ lineKeyOf store g) &&
                    decide (lineKeyOf store a ∉ seen)) := by
              funext g'
              by_cases hA : lineKeyOf store g' = lineKeyOf store g
              · by_cases hB : lineKeyOf store g' ∈ seen <;> simp [hA, hB]
              · by_cases hB : lineKeyOf store g' ∈ seen <;> simp [hA, hB]
            rw [hpred]

/-- C1: for two consecutive same-line words (vertical distance below the
vertical tolerance) whose gap between the second word's left edge and the
first word's right edge (left + width) is strictly below the horizontal
merge tolerance 0.01, the second word's text is concatenated directly onto
the first word's text with no inserted space — the iteration rewrites only
the previous word's `Text` and appends nothing to the line — producing one
word rather than two space-joined words; in particular the words
`{"Hel", top=0.1, left=0.10, width=0.03}` and
`{"lo", top=0.1004, left=0.131, width=0.02}` yield a single word "Hello"
within one line. -/
theorem C1_horizontal_merge_concatenates :
    (∀ (st : GroupSt) (i : Nat) (cy : ℚ) (j : Nat),
      st.currentY = some cy → st.lastWord = some j →
      |(st.store.getD i wdefault).box.Top - cy| < verticalThreshold →
      (st.store.getD i wdefault).box.Left -
          ((st.store.getD j wdefault).box.Left + (st.store.getD j wdefault).box.Width) <
        horizontalMergeThreshold →
      step st i = { st with
          store := st.store.set j
            ({ st.store.getD j wdefault with
                Text := (st.store.getD j wdefault).Text ++
                  (st.store.getD i wdefault).Text }) })
    ∧ organizeBlocks [helW, loW] = [⟨"Hello", 99, ⟨1/10, 1/10, 3/100, 2/100⟩⟩] :=
  ⟨step_merge_eq, by with_unfolding_all rfl⟩

/-- Witness for C1: the merge step applied at a concrete mid-pass state
(`fragA` is the line's only word, `fragB` arrives with gap 0.001). -/
theorem C1_horizontal_merge_concatenates_witness :
    step mergeExSt 1 = { mergeExSt with
        store := mergeExSt.store.set 0
          ({ mergeExSt.store.getD 0 wdefault with
              Text := (mergeExSt.store.getD 0 wdefault).Text ++
                (mergeExSt.store.getD 1 wdefault).Text }) } :=
  C1_horizontal_merge_concatenates.1 mergeExSt 1 (3/10) 0 rfl rfl
    (by with_unfolding_all decide) (by with_unfolding_all decide)

/-- C2: during line grouping, a word whose top differs from the current
reference top by strictly less than 0.005 joins the current line (the
output groups and the reference top are untouched), while a word at
distance 0.005 or more closes the current line and starts a new one seeded
with that word, resetting the reference top; in particular tops 0.500 and
0.5049 give one line and tops 0.500 and 0.510 give two lines. -/
theorem C2_vertical_grouping_threshold :
    (∀ (st : GroupSt) (i : Nat) (cy : ℚ),
      st.currentY = some cy →
      |(st.store.getD i wdefault).box.Top - cy| < verticalThreshold →
      (step st i).grouped = st.grouped ∧ (step st i).currentY = st.currentY)
    ∧ (∀ (st : GroupSt) (i : Nat) (cy : ℚ),
      st.currentY = some cy → st.currentLine ≠ [] →
      ¬ |(st.store.getD i wdefault).box.Top - cy| < verticalThreshold →
      (step st i).grouped = st.grouped ++ [st.currentLine] ∧
        (step st i).currentLine = [i] ∧
        (step st i).currentY = some (st.store.getD i wdefault).box.Top)
    ∧ (organizeBlocks [vgA, vgB]).map LineOut.Text = ["x y"]
    ∧ (organizeBlocks [vgA, vgC]).map LineOut.Text = ["x", "z"] :=
  ⟨step_sameline_keeps, step_far_closes,
    by with_unfolding_all rfl, by with_unfolding_all rfl⟩

/-- Witness for C2: both grouping branches at concrete states (same line
for top 0.5049 against reference 0.500; a new seeded line for top 0.510). -/
theorem C2_vertical_grouping_threshold_witness :
    ((step ⟨[vgA, vgB], [], [0], some (500/1000), some 0⟩ 1).grouped = [] ∧
      (step ⟨[vgA, vgB], [], [0], some (500/1000), some 0⟩ 1).currentY =
        some (500/1000)) ∧
    ((step ⟨[vgA, vgC], [], [0], some (500/1000), some 0⟩ 1).grouped = [[0]] ∧
      (step ⟨[vgA, vgC], [], [0], some (500/1000), some 0⟩ 1).currentLine = [1] ∧
      (step ⟨[vgA, vgC], [], [0], some (500/1000), some 0⟩ 1).currentY =
        some (510/1000)) :=
  ⟨C2_vertical_grouping_threshold.1 ⟨[vgA, vgB], [], [0], some (500/1000), some 0⟩ 1
      (500/1000) rfl (by with_unfolding_all decide),
    C2_vertical_grouping_threshold.2.1 ⟨[vgA, vgC], [], [0], some (500/1000), some 0⟩ 1
      (500/1000) rfl (by decide) (by with_unfolding_all decide)⟩

/-- C3: a finalized line's reported confidence is the minimum of its
constituent words' confidences — it is one of them and bounds all of them
from below; in particular a line built from words with confidences
99, 72 and 95 reports confidence 72. -/
theorem C3_confidence_is_minimum :
    (∀ (store : List Word) (ids : List Nat), ids ≠ [] →
      (finalizeLine store ids).Confidence ∈
          ids.map (fun i => (store.getD i wdefault).Confidence) ∧
        ∀ c ∈ ids.map (fun i => (store.getD i wdefault).Confidence),
          (finalizeLine store ids).Confidence ≤ c)
    ∧ (organizeBlocks confWords).map LineOut.Confidence = [72] := by
  refine ⟨?_, by with_unfolding_all rfl⟩
  intro store ids hne
  have hmapne : ids.map (fun i => (store.getD i wdefault).Confidence) ≠ [] := by
    simpa using hne
  exact ⟨jsMinList_mem _ hmapne, jsMinList_le _⟩

/-- Witness for C3: the minimum characterization at a concrete line. -/
theorem C3_confidence_is_minimum_witness :
    (finalizeLine confWords [0, 1, 2]).Confidence ∈
        [0, 1, 2].map (fun i => (confWords.getD i wdefault).Confidence) ∧
      ∀ c ∈ [0, 1, 2].map (fun i => (confWords.getD i wdefault).Confidence),
        (finalizeLine confWords [0, 1, 2]).Confidence ≤ c :=
  C3_confidence_is_minimum.1 confWords [0, 1, 2] (by decide)

/-- C4: the dedup stage keeps exactly the first occurrence of every
(joined text, top rounded to 3 decimals) key — it equals the reference
first-occurrence filter of the grouped lines — and the final sort by top
only permutes the surviving lines. -/
theorem C4_dedup_keeps_first_occurrence (store : List Word)
    (gls : List (List Nat)) :
    dedupLines store gls =
        (firstOccBy (lineKeyOf store) gls).map (finalizeLine store) ∧
      List.Perm (sortLinesByTop (dedupLines store gls)) (dedupLines store gls) := by
  constructor
  · have h := dedupAux_eq store gls.length gls (le_refl _) []
    simpa using h
  · exact sortBy_perm _ _

/-- C5 refutation: `organizeBlocks` is not pure — the horizontal merge
mutates the caller's word records, so running it again over the same
records yields a different result: the first run on the "Hel"/"lo" pair
returns the line "Hello" and rewrites the first record's text to "Hello";
the second run over those same records returns the line "Hellolo". -/
theorem C5_rerun_on_same_records_differs :
    (organizeBlocksRun [helW, loW]).1.map LineOut.Text = ["Hello"] ∧
      (organizeBlocksRun (organizeBlocksRun [helW, loW]).2).1.map LineOut.Text =
        ["Hellolo"] ∧
      (organizeBlocksRun (organizeBlocksRun [helW, loW]).2).1 ≠
        (organizeBlocksRun [helW, loW]).1 :=
  ⟨by with_unfolding_all rfl, by with_unfolding_all rfl,
    by with_unfolding_all decide⟩

/-- C6 refutation: `organizeBlocks` mutates an input detection in place —
after the run on the "Hel"/"lo" pair the input records are no longer the
originals: the first word's `Text` has become "Hello". -/
theorem C6_merge_mutates_input_record :
    (organizeBlocksRun [helW, loW]).2 ≠ [helW, loW] ∧
      (organizeBlocksRun [helW, loW]).2.map Word.Text = ["Hello", "lo"] :=
  ⟨by with_unfolding_all decide, by with_unfolding_all rfl⟩

/-- C7 refutation and the true half: a WORD record with absent geometry is
not discarded — `organizeBlocks` dereferences its bounding box and throws
a TypeError — while the empty input does return the empty output. -/
theorem C7_malformed_word_throws :
    organizeBlocksE [badGeomBlock] =
        Except.error "TypeError: cannot read BoundingBox of undefined Geometry" ∧
      organizeBlocksE [] = Except.ok [] :=
  ⟨rfl, rfl⟩

/-- C8 refutation: the emitter's collision rule pushes the three bottom
lines to 784.08, 789.08 and 794.08 points, the last beyond the 792-point
page height, yet it emits exactly one text page for them — there is no
pagination-overflow handling. -/
theorem C8_overflow_is_not_paginated :
    layoutYs none overflowLines = [19602/25, 19727/25, 19852/25] ∧
      pageHeightPts < 19852/25 ∧
      textPageCount overflowLines = 1 :=
  ⟨by with_unfolding_all rfl, by with_unfolding_all decide,
    by with_unfolding_all rfl⟩

/-- C9: every error raised by any stage inside the pipeline's try block —
fetch, the per-page render/OCR/reconstruction flow, reconstruction of a
single image, or PDF emission — is converted by the catch into the outcome
`{success: false, message}` carrying that error's message, and never
propagates past `processPdf`; a fully successful run returns the success
outcome with the output path. -/
theorem C9_stage_errors_become_outcomes {α β γ δ : Type}
    (isPdf : Bool) (fetch : Except String α)
    (processPages : α → Except String β)
    (generatePDFp : β → Except String String)
    (analyzeDocument : α → Except String γ)
    (organize : γ → Except String δ)
    (generatePDFi : α → δ → Except String String) :
    (∀ m, processPdfBody isPdf fetch processPages generatePDFp analyzeDocument
        organize generatePDFi = Except.error m →
      processPdfModel isPdf fetch processPages generatePDFp analyzeDocument
        organize generatePDFi = ⟨false, m, none⟩)
    ∧ (∀ oc, processPdfBody isPdf fetch processPages generatePDFp analyzeDocument
        organize generatePDFi = Except.ok oc →
      processPdfModel isPdf fetch processPages generatePDFp analyzeDocument
        organize generatePDFi = oc)
    ∧ (∀ m, fetch = Except.error m →
      processPdfModel isPdf fetch processPages generatePDFp analyzeDocument
        organize generatePDFi = ⟨false, m, none⟩)
    ∧ (∀ a m, fetch = Except.ok a → isPdf = true →
      processPages a = Except.error m →
      processPdfModel isPdf fetch processPages generatePDFp analyzeDocument
        organize generatePDFi = ⟨false, m, none⟩)
    ∧ (∀ a c m, fetch = Except.ok a → isPdf = false →
      analyzeDocument a = Except.ok c → organize c = Except.error m →
      processPdfModel isPdf fetch processPages generatePDFp analyzeDocument
        organize generatePDFi = ⟨false, m, none⟩) := by
  refine ⟨?_, ?_, ?_, ?_, ?_⟩
  · intro m h
    simp [processPdfModel, jsTryCatch, h]
  · intro oc h
    simp [processPdfModel, jsTryCatch, h]
  · intro m h
    simp [processPdfModel, jsTryCatch, processPdfBody, h, Bind.bind, Except.bind]
  · intro a m hf hp hpp
    subst hp
    simp [processPdfModel, jsTryCatch, processPdfBody, hf, hpp, Bind.bind,
      Except.bind]
  · intro a c m hf hp ha ho
    subst hp
    simp [processPdfModel, jsTryCatch, processPdfBody, hf, ha, ho, Bind.bind,
      Except.bind]

/-- Witness for C9: a failing fetch surfaces as a failure outcome. -/
theorem C9_stage_errors_become_outcomes_witness :
    processPdfModel true (Except.error "S3 download failed")
        (fun _ : Unit => Except.ok ()) (fun _ : Unit => Except.ok "out.pdf")
        (fun _ : Unit => Except.ok ()) (fun _ : Unit => Except.ok ())
        (fun _ : Unit => fun _ : Unit => Except.ok "out.pdf") =
      ⟨false, "S3 download failed", none⟩ :=
  (C9_stage_errors_become_outcomes true (Except.error "S3 download failed")
      (fun _ : Unit => Except.ok ()) (fun _ : Unit => Except.ok "out.pdf")
      (fun _ : Unit => Except.ok ()) (fun _ : Unit => Except.ok ())
      (fun _ : Unit => fun _ : Unit => Except.ok "out.pdf")).2.2.1
    "S3 download failed" rfl

/-- C10: a word absorbed by horizontal merge is never appended to the
line's word list (the merge iteration leaves both the current line and the
output groups untouched), so the finalized line's statistics exclude it —
for the pair `fragA` (confidence 90, right edge 0.13) and absorbed `fragB`
(confidence 10, right edge 0.17) the line reports confidence 90, not 10,
and box width 0.03, ignoring the absorbed fragment's right edge. -/
theorem C10_absorbed_word_excluded_from_stats :
    (∀ (st : GroupSt) (i : Nat) (cy : ℚ) (j : Nat),
      st.currentY = some cy → st.lastWord = some j →
      |(st.store.getD i wdefault).box.Top - cy| < verticalThreshold →
      (st.store.getD i wdefault).box.Left -
          ((st.store.getD j wdefault).box.Left + (st.store.getD j wdefault).box.Width) <
        horizontalMergeThreshold →
      (step st i).currentLine = st.currentLine ∧ (step st i).grouped = st.grouped)
    ∧ (organizeBlocks [fragA, fragB]).map LineOut.Confidence = [90]
    ∧ (organizeBlocks [fragA, fragB]).map (fun l => l.box.Width) = [3/100] := by
  refine ⟨?_, by with_unfolding_all rfl, by with_unfolding_all rfl⟩
  intro st i cy j h1 h2 h3 h4
  rw [step_merge_eq st i cy j h1 h2 h3 h4]
  exact ⟨rfl, rfl⟩

/-- Witness for C10: the merge iteration at a concrete state appends
nothing to the current line or the output groups. -/
theorem C10_absorbed_word_excluded_from_stats_witness :
    (step mergeExSt 1).currentLine = [0] ∧ (step mergeExSt 1).grouped = [] :=
  C10_absorbed_word_excluded_from_stats.1 mergeExSt 1 (3/10) 0 rfl rfl
    (by with_unfolding_all decide) (by with_unfolding_all decide)

end OcrTextract
